import Mathlib

/-!
# Verification of the media-download orchestration core

Shallow embedding of the download orchestration layer of the
`instagram_bot` repository: the strategy-fallback loop and error
classification of `src/utils/youtube_downloader.py`, the credential store
and error handling of `src/utils/downloader.py`, the mirror-tier stream
selection and mux fallback, the music-recognition segment schedule of
`src/utils/music_recognition.py`, and the URL recognition regexes of
`src/config.py`.

Python functions are translated into executable Lean definitions.  I/O
outcomes (network attempts, subprocess results, downloaded file sizes)
are passed in explicitly as data, so that the control flow of the source
becomes a pure function of those outcomes.
-/

namespace InstagramBot

/-! ## Basic string machinery

Python string operations (`in`, `re.search` for the concrete patterns
used by the repository, `str.lower`, `str.split`) modelled over
`List Char` / `String`. -/

/-- Consume the literal `tok` from the front of `s`; return the rest on
success.  This is the primitive for all literal regex fragments. -/
def litP : List Char → List Char → Option (List Char)
  | [], s => some s
  | _ :: _, [] => none
  | c :: cs, x :: xs => if x = c then litP cs xs else none

/-- Python `tok in s` (substring containment) over char lists. -/
def hasSub (tok : List Char) : List Char → Bool
  | [] => decide (tok = [])
  | c :: cs => (litP tok (c :: cs)).isSome || hasSub tok cs

/-- Python `tok in s` over strings. -/
def hasSubS (tok s : String) : Bool :=
  hasSub tok.toList s.toList

/-- Python `str.lower()`.  (Character-wise lowering; every marker the
classifiers match is ASCII.) -/
def strLower (s : String) : String :=
  String.mk (s.toList.map Char.toLower)

/-- Python default whitespace for `str.strip()` (the ASCII part, which
covers cookie files). -/
def isPySpace (c : Char) : Bool :=
  c = ' ' || c = '\t' || c = '\n' || c = '\r' || c = '\x0b' || c = '\x0c'

/-- Python `str.strip()`. -/
def strTrim (s : String) : String :=
  String.mk (((s.toList.dropWhile isPySpace).reverse.dropWhile isPySpace).reverse)

/-- Python `s.startswith(pre)`. -/
def strStartsWith (s pre : String) : Bool :=
  (litP pre.toList s.toList).isSome

/-- Python `s.split(sep)` for a one-character separator (empty parts
are kept; the empty string yields one empty part). -/
def splitChar (sep : Char) : List Char → List (List Char)
  | [] => [[]]
  | c :: cs =>
    if c = sep then [] :: splitChar sep cs
    else
      match splitChar sep cs with
      | [] => [[c]]
      | g :: gs => (c :: g) :: gs

/-- Python `s.split('\t')`. -/
def splitTab (s : String) : List String :=
  (splitChar '\t' s.toList).map String.mk

/-! ## Credential Store — `src/utils/downloader.py`

`_parse_netscape_cookies` and `_try_load_session`.  The cookie file is
modelled as the list of its lines; the Python `dict` is an association
list with assignment-replaces semantics. -/

/-- `d[k] = v` for a Python dict modelled as an association list:
replace the binding if the key exists, else append. -/
def dictInsert (d : List (String × String)) (k v : String) : List (String × String) :=
  if d.any (fun p => p.1 = k) then
    d.map (fun p => if p.1 = k then (k, v) else p)
  else
    d ++ [(k, v)]

/-- `d.get(k)` for the association-list dict. -/
def dictGet (d : List (String × String)) (k : String) : Option String :=
  (d.find? (fun p => p.1 = k)).map (fun p => p.2)

/-- One step of `_parse_netscape_cookies`: process one line of the
cookie file.  A line is stripped; blank lines and lines starting with
`#` are skipped; otherwise it is split on tabs and, when at least seven
fields are present, field 5 is the cookie name and field 6 its value. -/
def parseCookieLine (acc : List (String × String)) (line : String) : List (String × String) :=
  let l := strTrim line
  if l = "" then acc
  else if strStartsWith l "#" then acc
  else
    let parts := splitTab l
    if 7 ≤ parts.length then dictInsert acc (parts.getD 5 "") (parts.getD 6 "")
    else acc

/-- `_parse_netscape_cookies` over the lines of the file (the
`cookies_file.exists()` guard is the `fileExists` flag of
`tryLoadSession`). -/
def parseNetscapeCookies (lines : List String) : List (String × String) :=
  lines.foldl parseCookieLine []

/-- `_try_load_session`: `False` when the file is missing, the parsed
dict is empty, or the `sessionid` / `ds_user_id` cookies are missing or
empty; `True` otherwise (the session is then installed on the loader,
which has no effect on the load verdict). -/
def tryLoadSession (fileExists : Bool) (lines : List String) : Bool :=
  if !fileExists then false
  else
    let cookies := parseNetscapeCookies lines
    if cookies.isEmpty then false
    else
      let sessionid := (dictGet cookies "sessionid").getD ""
      let dsUserId := (dictGet cookies "ds_user_id").getD ""
      if sessionid = "" then false
      else if dsUserId = "" then false
      else true

/-! ## Music Recognition segment schedule — `src/utils/music_recognition.py`

`recognize_only` (and identically `recognize_and_download`) builds the
list of segment start offsets from the probed duration.  Durations are
modelled as rationals. -/

/-- The segment start-offset list of `recognize_only`:
`segments = [0]`, then `duration * 0.3` when `duration > 30`, then
`duration * 0.5` when `duration > 60`, then `max(5, duration * 0.15)`
when `duration > 15`, appended in exactly this program order. -/
def recognitionSegments (duration : ℚ) : List ℚ :=
  let s : List ℚ := [0]
  let s := if duration > 30 then s ++ [duration * (3 / 10)] else s
  let s := if duration > 60 then s ++ [duration * (1 / 2)] else s
  if duration > 15 then s ++ [max 5 (duration * (3 / 20))] else s

/-! ## YouTube strategy loop — `src/utils/youtube_downloader.py`

`_is_bot_error`, `_classify_error`, and the strategy-fallback loops of
`_sync_get_video_info` / `_sync_download_video`.  Each strategy attempt
against `yt_dlp` either yields an info dict or raises with a message;
the per-attempt outcomes are passed in as a list.  The mirror tiers
(Piped / Invidious / Cobalt) each either produce a result dict or
nothing; their outcomes are passed in as `Option`s. -/

/-- `_is_bot_error`: the message (lowercased) signals YouTube bot
detection. -/
def isBotError (errorMsg : String) : Bool :=
  let lower := strLower errorMsg
  hasSubS "sign in" lower || hasSubS "bot" lower || hasSubS "confirm" lower

/-- `_classify_error`: map an error message to an error kind string. -/
def classifyError (errorMsg : String) : String :=
  let lower := strLower errorMsg
  if hasSubS "private" lower then "private"
  else if hasSubS "unavailable" lower || hasSubS "not available" lower then "not_found"
  else if hasSubS "age" lower then "age_restricted"
  else "unknown"

/-- The info dict a successful strategy returns, distilled to the fields
the callers read. -/
structure YtInfo where
  title : String
  duration : Nat
  deriving DecidableEq, Repr

/-- `YouTubeDownloadError(message, error_type)`. -/
structure YouTubeDownloadError where
  message : String
  errorType : String
  deriving DecidableEq, Repr

/-- Outcome of one strategy attempt: `extract_info` returns an info
dict, or raises an exception whose `str` is `msg`. -/
inductive StratOutcome where
  | ok (info : YtInfo)
  | err (msg : String)
  deriving DecidableEq, Repr

/-- Result of the strategy loop shared by `_sync_get_video_info` and
`_sync_download_video` (their `for strategy in strategies` bodies have
identical error handling): success with the number of strategies
attempted, an immediately raised classified error with the number of
strategies attempted, or exhaustion carrying `last_error`. -/
inductive LoopRes where
  | success (info : YtInfo) (used : Nat)
  | terminal (e : YouTubeDownloadError) (used : Nat)
  | exhausted (lastError : Option String)
  deriving DecidableEq, Repr

/-- The strategy loop: on failure, a bot-detection message means
continue with the next strategy; otherwise a non-`unknown`
classification raises `YouTubeDownloadError(msg, classification)`; an
`unknown` classification is logged and the loop continues.
`last_error` is updated on every failure. -/
def strategyLoop : List StratOutcome → Nat → Option String → LoopRes
  | [], _, last => .exhausted last
  | .ok info :: _, used, _ => .success info (used + 1)
  | .err msg :: rest, used, _ =>
    if isBotError msg then strategyLoop rest (used + 1) (some msg)
    else if classifyError msg ≠ "unknown" then
      .terminal ⟨msg, classifyError msg⟩ (used + 1)
    else strategyLoop rest (used + 1) (some msg)

/-- A whole fetch run: its result, how many strategies were attempted,
and whether the mirror fallback chain was entered. -/
structure FetchRun where
  result : Except YouTubeDownloadError YtInfo
  strategiesUsed : Nat
  mirrorsTried : Bool
  deriving Repr

/-- `str(last_error)`: `None` prints as `"None"`. -/
def lastErrorStr : Option String → String
  | some m => m
  | none => "None"

/-- `_sync_get_video_info`: run the strategy loop; on exhaustion try the
Piped then the Invidious info mirrors; if both fail, raise
`info_failed` carrying the last strategy error. -/
def syncGetVideoInfo (attempts : List StratOutcome)
    (piped invidious : Option YtInfo) : FetchRun :=
  match strategyLoop attempts 0 none with
  | .success info used => ⟨.ok info, used, false⟩
  | .terminal e used => ⟨.error e, used, false⟩
  | .exhausted last =>
    match piped with
    | some info => ⟨.ok info, attempts.length, true⟩
    | none =>
      match invidious with
      | some info => ⟨.ok info, attempts.length, true⟩
      | none => ⟨.error ⟨lastErrorStr last, "info_failed"⟩, attempts.length, true⟩

/-- `_sync_download_video`: identical loop (plus per-attempt scratch
cleanup, which does not affect control flow), then the Piped, Invidious
and Cobalt download mirrors in order; if all fail, raise
`download_failed` carrying the last strategy error. -/
def syncDownloadVideo (attempts : List StratOutcome)
    (piped invidious cobalt : Option YtInfo) : FetchRun :=
  match strategyLoop attempts 0 none with
  | .success info used => ⟨.ok info, used, false⟩
  | .terminal e used => ⟨.error e, used, false⟩
  | .exhausted last =>
    match piped with
    | some info => ⟨.ok info, attempts.length, true⟩
    | none =>
      match invidious with
      | some info => ⟨.ok info, attempts.length, true⟩
      | none =>
        match cobalt with
        | some info => ⟨.ok info, attempts.length, true⟩
        | none => ⟨.error ⟨lastErrorStr last, "download_failed"⟩, attempts.length, true⟩

/-! ## Instagram fetcher and credential invalidation — `src/utils/downloader.py`

Process-wide state is the pair of module globals `_cookies_valid` and
`_loader` (modelled as `loaderCached`; the loader object itself carries
no information the claims need).  The instaloader exceptions are a
closed inductive; `DownloadError` is the classified error. -/

/-- `DownloadError(message, error_type)`. -/
structure DownloadError where
  message : String
  errorType : String
  deriving DecidableEq, Repr

/-- The instaloader exception classes `_handle_instaloader_error`
dispatches on, plus a generic class for any other exception. -/
inductive IgExcKind where
  | loginRequired
  | privateProfileNotFollowed
  | profileNotExists
  | postChanged
  | queryReturnedNotFound
  | connection
  | generic
  deriving DecidableEq, Repr

/-- An exception raised by an instaloader call: its class and its
`str`. -/
structure IgExc where
  kind : IgExcKind
  msg : String
  deriving DecidableEq, Repr

/-- `_is_auth_error`: authentication-class signals on the lowercased
message, with the rate-limit signals `please wait` and `429` explicitly
excluded first. -/
def isAuthError (errorMsg : String) : Bool :=
  let msg := strLower errorMsg
  if hasSubS "please wait" msg || hasSubS "429" msg then false
  else
    hasSubS "logged_out" msg || hasSubS "login_required" msg ||
      hasSubS "user_has_logged_out" msg || hasSubS "unauthorized" msg ||
      hasSubS "checkpoint_required" msg

/-- `_handle_instaloader_error`: classify an instaloader exception and
raise the corresponding `DownloadError` (this function always
raises). -/
def handleInstaloaderError (e : IgExc) : DownloadError :=
  match e.kind with
  | .loginRequired => ⟨"Login required for this content", "private"⟩
  | .privateProfileNotFollowed => ⟨"This is a private profile", "private"⟩
  | .profileNotExists => ⟨"Profile or post not found", "not_found"⟩
  | .postChanged => ⟨"Post was deleted or changed", "not_found"⟩
  | .queryReturnedNotFound => ⟨"Content not found", "not_found"⟩
  | .connection =>
    if hasSubS "429" e.msg then ⟨"Rate limited, please try again later", "rate_limit"⟩
    else if isAuthError e.msg then ⟨"Authentication error", "private"⟩
    else ⟨e.msg, "download_failed"⟩
  | .generic => ⟨e.msg, "download_failed"⟩

/-- The module-global mutable state of `downloader.py`:
`_cookies_valid` and whether `_loader` is currently constructed
(`_loader is not None`). -/
structure IgState where
  cookiesValid : Bool
  loaderCached : Bool
  deriving DecidableEq, Repr

/-- `_invalidate_cookies`: clear the validity flag and drop the cached
loader. -/
def invalidateCookies (_st : IgState) : IgState :=
  ⟨false, false⟩

/-- `_get_loader`: construct the loader on first use; if loading the
cookie session fails at that point, `_cookies_valid` is set `False`
(the loader is still returned and used for the current attempt).  The
flag is never set back to `True`. -/
def getLoaderState (st : IgState) (sessionLoadOk : Bool) : IgState :=
  if st.loaderCached then st
  else ⟨st.cookiesValid && sessionLoadOk, true⟩

/-- Result of a media download from Instagram: file paths with their
on-disk sizes, caption, and media type. -/
structure IgMedia where
  files : List (String × Nat)
  caption : String
  mediaType : String
  deriving DecidableEq, Repr

/-- Outcome of one `_download_post_with_loader` /
`_download_story_with_loader` call: success, an instaloader exception,
or (story variant) a `DownloadError` raised inside the helper itself. -/
inductive IgAttempt where
  | ok (media : IgMedia)
  | fail (e : IgExc)
  | failDl (d : DownloadError)
  deriving DecidableEq, Repr

/-- `str(e)` of an attempt failure (used by `_is_auth_error`). -/
def igAttemptMsg : IgAttempt → String
  | .ok _ => ""
  | .fail e => e.msg
  | .failDl d => d.message

/-- Result of a `_sync_download_post` / `_sync_download_story` call:
the updated global state, the returned media or raised error, and
whether the cookie-backed strategy was attempted. -/
structure IgRun where
  state : IgState
  result : Except DownloadError IgMedia
  cookieStrategyUsed : Bool
  deriving Repr

/-- The shared no-auth tail of `_sync_download_post`: success returns;
`LoginRequiredException` maps to a `private` error with the Uzbek
message; anything else goes through `_handle_instaloader_error`.
(`_download_post_with_loader` raises no `DownloadError` itself, so the
`failDl` case routes through the generic exception handler as an
exception whose classification preserves it.) -/
def postNoauthTail (st : IgState) (noauth : IgAttempt) (used : Bool) : IgRun :=
  match noauth with
  | .ok media => ⟨st, .ok media, used⟩
  | .fail e =>
    if e.kind = .loginRequired then ⟨st, .error ⟨"Bu kontent yopiq, login kerak", "private"⟩, used⟩
    else ⟨st, .error (handleInstaloaderError e), used⟩
  | .failDl d => ⟨st, .error d, used⟩

/-- `_sync_download_post`: try the cookie-backed loader only while
`_cookies_valid`; on an authentication-class failure invalidate the
cookies (and clean the scratch files) and fall through to the no-auth
loader; on any other failure raise the classified error.  When
`_cookies_valid` is already `False` the cookie strategy is skipped
entirely. -/
def syncDownloadPost (st : IgState) (cookieAttempt noauthAttempt : IgAttempt)
    (sessionLoadOk : Bool) : IgRun :=
  if st.cookiesValid then
    let st1 := getLoaderState st sessionLoadOk
    match cookieAttempt with
    | .ok media => ⟨st1, .ok media, true⟩
    | .fail e =>
      if isAuthError e.msg then
        postNoauthTail (invalidateCookies st1) noauthAttempt true
      else ⟨st1, .error (handleInstaloaderError e), true⟩
    | .failDl d =>
      if isAuthError d.message then
        postNoauthTail (invalidateCookies st1) noauthAttempt true
      else ⟨st1, .error (handleInstaloaderError ⟨.generic, d.message⟩), true⟩
  else postNoauthTail st noauthAttempt false

/-- The no-auth tail of `_sync_download_story`: a `DownloadError`
raised by the helper is re-raised unchanged; `LoginRequiredException`
maps to `private`; anything else goes through
`_handle_instaloader_error`. -/
def storyNoauthTail (st : IgState) (noauth : IgAttempt) (used : Bool) : IgRun :=
  match noauth with
  | .ok media => ⟨st, .ok media, used⟩
  | .failDl d => ⟨st, .error d, used⟩
  | .fail e =>
    if e.kind = .loginRequired then ⟨st, .error ⟨"Stories uchun login kerak", "private"⟩, used⟩
    else ⟨st, .error (handleInstaloaderError e), used⟩

/-- `_sync_download_story`: like the post variant, but in the cookie
branch a `DownloadError` from the helper is re-raised (after the auth
check, which is tested first on its message). -/
def syncDownloadStory (st : IgState) (cookieAttempt noauthAttempt : IgAttempt)
    (sessionLoadOk : Bool) : IgRun :=
  if st.cookiesValid then
    let st1 := getLoaderState st sessionLoadOk
    match cookieAttempt with
    | .ok media => ⟨st1, .ok media, true⟩
    | .fail e =>
      if isAuthError e.msg then
        storyNoauthTail (invalidateCookies st1) noauthAttempt true
      else ⟨st1, .error (handleInstaloaderError e), true⟩
    | .failDl d =>
      if isAuthError d.message then
        storyNoauthTail (invalidateCookies st1) noauthAttempt true
      else ⟨st1, .error d, true⟩
  else storyNoauthTail st noauthAttempt false

/-! ## Mirror-tier stream selection — `src/utils/youtube_downloader.py`

`_piped_download_video` (lines 377–392) and
`_invidious_download_video` (lines 528–546) resolve the best video
stream under the quality cap.  Python `max(xs, key)` / `min(xs, key)`
return the first maximal / minimal element. -/

/-- Python `max(x :: xs, key)`: first element of maximal key. -/
def pyMaxBy (key : α → Nat) : List α → Option α
  | [] => none
  | x :: xs => some (xs.foldl (fun b a => if key a > key b then a else b) x)

/-- Python `min(x :: xs, key)`: first element of minimal key. -/
def pyMinBy (key : α → Nat) : List α → Option α
  | [] => none
  | x :: xs => some (xs.foldl (fun b a => if key a < key b then a else b) x)

/-- A Piped stream entry, distilled to the fields the selector reads.
`height` is `none` when the JSON field is absent or null. -/
structure PipedStream where
  url : String
  mimeType : String
  height : Option Nat
  videoOnly : Bool
  bitrate : Nat
  deriving DecidableEq, Repr

/-- `s.get('height') or 0`. -/
def pipedHeight (s : PipedStream) : Nat :=
  s.height.getD 0

/-- The mp4-preferred candidate list of `_piped_download_video`:
streams whose mime type contains `video/mp4`, or all video streams when
that filter is empty. -/
def pipedMp4Candidates (videoStreams : List PipedStream) : List PipedStream :=
  let f := videoStreams.filter (fun s => hasSubS "video/mp4" s.mimeType)
  if f.isEmpty then videoStreams else f

/-- `target_h = int(quality) if quality in ["1080","720","480","360"] else 720`. -/
def targetHeight (quality : String) : Nat :=
  if ["1080", "720", "480", "360"].contains quality then (quality.toNat?).getD 720
  else 720

/-- The video-stream selection of `_piped_download_video`: among the
mp4-preferred candidates, the first of maximal height among those with
height at most the cap; when none qualifies, the first of minimal
height. -/
def pipedPickVideo (videoStreams : List PipedStream) (targetH : Nat) : Option PipedStream :=
  match videoStreams with
  | [] => none
  | _ =>
    let mp4Vids := pipedMp4Candidates videoStreams
    let suitable := mp4Vids.filter (fun s => pipedHeight s ≤ targetH)
    if suitable.isEmpty then pyMinBy pipedHeight mp4Vids
    else pyMaxBy pipedHeight suitable

/-- An Invidious adaptive-format entry, distilled to the fields the
selector reads. -/
structure InvFormat where
  url : String
  typeStr : String
  qualityLabel : String
  bitrate : Nat
  deriving DecidableEq, Repr

/-- Digits of a run, most significant first, to a number. -/
def digitsToNat (cs : List Char) : Nat :=
  cs.foldl (fun n c => n * 10 + (c.toNat - '0'.toNat)) 0

/-- `_parse_quality_label`: leftmost occurrence of a digit run followed
by `p` (the value of `re.search(..(\d+)p..)`), else 0.  Scanning
position by position with a maximal digit run is equivalent to the
regex search, because a shorter (backtracked) run is necessarily
followed by a digit, never by `p`. -/
def parseQualityLabelAux : List Char → Option Nat
  | [] => none
  | c :: cs =>
    if c.isDigit then
      match (c :: cs).dropWhile Char.isDigit with
      | 'p' :: _ => some (digitsToNat ((c :: cs).takeWhile Char.isDigit))
      | _ => parseQualityLabelAux cs
    else parseQualityLabelAux cs

/-- `_parse_quality_label('720p') = 720`, `_parse_quality_label('unknown') = 0`. -/
def parseQualityLabel (label : String) : Nat :=
  (parseQualityLabelAux label.toList).getD 0

/-- The video-format selection of `_invidious_download_video`: among
the adaptive video formats, the first of maximal parsed quality label
among those at most the cap; when none qualifies, the first of minimal
label under the key `label or 9999` (a label parsing to 0 counts as
9999). -/
def invPickVideo (videos : List InvFormat) (targetH : Nat) : Option InvFormat :=
  match videos with
  | [] => none
  | _ =>
    let suitable := videos.filter (fun v => parseQualityLabel v.qualityLabel ≤ targetH)
    if suitable.isEmpty then
      pyMinBy
        (fun f =>
          let q := parseQualityLabel f.qualityLabel
          if q = 0 then 9999 else q)
        videos
    else pyMaxBy (fun f => parseQualityLabel f.qualityLabel) suitable

/-! ## Mux fallback — `_piped_download_video` lines 402–427,
`_invidious_download_video` lines 548–566, with `_merge_av`. -/

/-- What ends up at the mirror tier's output path for one instance. -/
inductive MuxOutcome where
  | failed
  | combinedFile
  | mergedFile
  | videoOnlyFile
  deriving DecidableEq, Repr

/-- The assembly tail of `_piped_download_video` for a video-quality
request: a combined stream is downloaded directly to the output path; a
video-only stream is downloaded to a temp file, the best audio stream
(when one exists) is downloaded and `_merge_av` muxes them — on mux or
audio-download failure the raw video temp file is renamed to the output
path instead of failing. -/
def pipedAssembleVideo (videoOnly vidOk haveAudioStream audOk mergeOk : Bool) : MuxOutcome :=
  if !videoOnly then
    if vidOk then .combinedFile else .failed
  else if !vidOk then .failed
  else if !haveAudioStream then .videoOnlyFile
  else if !audOk then .videoOnlyFile
  else if mergeOk then .mergedFile
  else .videoOnlyFile

/-- The assembly tail of `_invidious_download_video` for a
video-quality request on one instance: adaptive video formats are
preferred (same download/mux/rename logic as Piped); with no adaptive
video formats the first combined format stream is used; with neither
the instance is skipped. -/
def invAssembleVideo (haveAdaptiveVideo vidOk haveAudio audOk mergeOk haveCombined combinedOk : Bool) :
    MuxOutcome :=
  if haveAdaptiveVideo then
    if !vidOk then .failed
    else if !haveAudio then .videoOnlyFile
    else if !audOk then .videoOnlyFile
    else if mergeOk then .mergedFile
    else .videoOnlyFile
  else if haveCombined then
    if combinedOk then .combinedFile else .failed
  else .failed

/-! ## URL recognition — `src/config.py` and `src/utils/downloader.py`

The concrete regexes of the repository are embedded as deterministic
matchers over `List Char`.  For each of them the usual greedy/backtrack
semantics of `re` collapses to the deterministic reading implemented
here, because no character class of the patterns contains the delimiter
that follows it. -/

/-- ASCII `\w`. -/
def isWordChar (c : Char) : Bool :=
  c.isAlphanum || c = '_'

/-- `[\w-]` (shortcode class of `_extract_shortcode` and of the
per-kind URL patterns). -/
def isWordDash (c : Char) : Bool :=
  isWordChar c || c = '-'

/-- `[\w.-]` (path-segment class of `INSTAGRAM_URL_REGEX`). -/
def isWordDotDash (c : Char) : Bool :=
  isWordChar c || c = '.' || c = '-'

/-- `[A-Za-z0-9_.]` (username class of `_extract_story_info`). -/
def isStoryNameChar (c : Char) : Bool :=
  c.isAlphanum || c = '_' || c = '.'

/-- Try `tok` at the current position and capture the following maximal
nonempty run of `cls` characters (the group of the pattern
`tok([cls]+)`). -/
def matchTokCls (tok : List Char) (cls : Char → Bool) (s : List Char) : Option (List Char) :=
  match litP tok s with
  | none => none
  | some r =>
    match r with
    | [] => none
    | c :: cs => if cls c then some (c :: cs.takeWhile cls) else none

/-- `re.search` for a pattern `tok([cls]+)`: leftmost match, returning
the captured group. -/
def searchTokCls (tok : List Char) (cls : Char → Bool) : List Char → Option (List Char)
  | [] => none
  | c :: cs =>
    match matchTokCls tok cls (c :: cs) with
    | some code => some code
    | none => searchTokCls tok cls cs

/-- `_extract_shortcode`: try the `/p/`, `/reel/`, `/tv/` patterns in
order, returning the first captured shortcode. -/
def extractShortcode (url : List Char) : Option (List Char) :=
  match searchTokCls "instagram.com/p/".toList isWordDash url with
  | some code => some code
  | none =>
    match searchTokCls "instagram.com/reel/".toList isWordDash url with
    | some code => some code
    | none => searchTokCls "instagram.com/tv/".toList isWordDash url

/-- Match at the current position the story pattern
`instagram\.com/stories/([A-Za-z0-9_.]+)/(\d+)`, returning both
groups. -/
def matchStoryHere (s : List Char) : Option (List Char × List Char) :=
  match litP "instagram.com/stories/".toList s with
  | none => none
  | some r =>
    match r with
    | [] => none
    | c :: cs =>
      if isStoryNameChar c then
        let user := c :: cs.takeWhile isStoryNameChar
        match litP ['/'] (cs.dropWhile isStoryNameChar) with
        | none => none
        | some r2 =>
          match r2 with
          | [] => none
          | d :: ds => if d.isDigit then some (user, d :: ds.takeWhile Char.isDigit) else none
      else none

/-- `_extract_story_info`: leftmost match of the story pattern. -/
def extractStoryInfo : List Char → Option (List Char × List Char)
  | [] => none
  | c :: cs =>
    match matchStoryHere (c :: cs) with
    | some info => some info
    | none => extractStoryInfo cs

/-- `_is_story_url`. -/
def isStoryUrl (url : List Char) : Bool :=
  hasSub "instagram.com/stories/".toList url

/-- Optional piece of a regex: try `p` and continue with `k` on its
remainder, falling back to `k` on the unconsumed input (the backtrack
of `(?:...)?`). -/
def optThen (p : List Char → Option (List Char)) (k : List Char → Option (List Char))
    (s : List Char) : Option (List Char) :=
  match p s with
  | some r =>
    match k r with
    | some v => some v
    | none => k s
  | none => k s

/-- Ordered alternation `(?:a₁|a₂|...)` of literals, continuing with
`k` (with backtracking across alternatives). -/
def altsThen : List (List Char) → (List Char → Option (List Char)) → List Char →
    Option (List Char)
  | [], _, _ => none
  | a :: as, k, s =>
    match litP a s with
    | some r =>
      match k r with
      | some v => some v
      | none => altsThen as k s
    | none => altsThen as k s

/-- Maximal nonempty run of `cls`, continuing with `k` (as argued
above, no continuation of the embedded patterns can force the `+` to
backtrack). -/
def plusThen (cls : Char → Bool) (k : List Char → Option (List Char))
    (s : List Char) : Option (List Char) :=
  match s with
  | [] => none
  | c :: cs => if cls c then k (cs.dropWhile cls) else none

/-- The tail `[\w.-]+(?:/\d+)?/?` of `INSTAGRAM_URL_REGEX`. -/
def igRegexTail (s : List Char) : Option (List Char) :=
  plusThen isWordDotDash
    (optThen (fun r => litP ['/'] r |>.bind (plusThen Char.isDigit some))
      (optThen (litP ['/']) some))
    s

/-- Match `INSTAGRAM_URL_REGEX`
(`https?://(?:www\.)?instagram\.com/(?:p|reel|stories|tv|share)/[\w.-]+(?:/\d+)?/?`)
at the current position, returning the remainder after the match. -/
def igRegexMatch (s : List Char) : Option (List Char) :=
  litP "http".toList s |>.bind
    (optThen (litP ['s'])
      (fun r => litP "://".toList r |>.bind
        (optThen (litP "www.".toList)
          (fun r2 => litP "instagram.com/".toList r2 |>.bind
            (altsThen ["p".toList, "reel".toList, "stories".toList, "tv".toList, "share".toList]
              (fun r3 => litP ['/'] r3 |>.bind igRegexTail))))))

/-- `INSTAGRAM_URL_REGEX.findall`: scan left to right; at a match emit
the matched substring and resume after it (fuelled by the input length;
every match consumes at least one character, so the fuel never runs out
on inputs of that length). -/
def igFindallAux : Nat → List Char → List (List Char)
  | 0, _ => []
  | _ + 1, [] => []
  | fuel + 1, c :: cs =>
    match igRegexMatch (c :: cs) with
    | some r => (c :: cs).take ((c :: cs).length - r.length) :: igFindallAux fuel r
    | none => igFindallAux fuel cs

/-- `INSTAGRAM_URL_REGEX.findall(text)`. -/
def igFindall (text : List Char) : List (List Char) :=
  igFindallAux text.length text

/-- Anchored match (`re.match`) of one entry of
`INSTAGRAM_URL_PATTERNS`: scheme and host, then the given kind segment
and its character class, then an optional trailing slash (an optional
`/(\d+)` story suffix where the pattern has one). -/
def igPatternMatch (kind : List Char) (cls : Char → Bool) (storySuffix : Bool)
    (s : List Char) : Bool :=
  (litP "http".toList s |>.bind
    (optThen (litP ['s'])
      (fun r => litP "://".toList r |>.bind
        (optThen (litP "www.".toList)
          (fun r2 => litP "instagram.com/".toList r2 |>.bind
            (fun r3 => litP (kind ++ ['/']) r3 |>.bind
              (plusThen cls
                (fun r4 =>
                  if storySuffix then
                    litP ['/'] r4 |>.bind (plusThen Char.isDigit (optThen (litP ['/']) some))
                  else optThen (litP ['/']) some r4)))))))).isSome

/-- `any(pattern.match(url) for pattern in INSTAGRAM_URL_PATTERNS)`,
in catalog order (`p`, `reel`, `stories`, `tv`, `share`). -/
def igAnyPatternMatch (url : List Char) : Bool :=
  igPatternMatch "p".toList isWordDash false url ||
    igPatternMatch "reel".toList isWordDash false url ||
    igPatternMatch "stories".toList isWordDotDash true url ||
    igPatternMatch "tv".toList isWordDash false url ||
    igPatternMatch "share".toList isWordDash false url

/-- `extract_instagram_urls`: findall on the recognition regex, keep
the candidates accepted by some per-kind pattern, deduplicating while
preserving order. -/
def extractInstagramUrls (text : List Char) : List (List Char) :=
  (igFindall text).foldl
    (fun urls url =>
      if igAnyPatternMatch url then
        if urls.contains url then urls else urls ++ [url]
      else urls)
    []

/-! ## Request boundaries — `download_instagram_media` and
`download_youtube_video`

URL routing, the post-download size check, scratch-directory cleanup
and the conversion of unexpected exceptions to classified errors.  The
outcome of the offloaded sync call is passed in as an `IgInner` /
`YtInner` value. -/

/-- Outcome of the offloaded sync download inside the Instagram
boundary: a media result, a raised `DownloadError`, or an unexpected
exception whose `str` is `msg`. -/
inductive IgInner where
  | ok (media : IgMedia)
  | failDl (d : DownloadError)
  | failRaw (msg : String)
  deriving DecidableEq, Repr

/-- What the boundary hands back: the classified result and whether the
request's scratch directory was deleted before returning. -/
structure IgBoundaryOut where
  result : Except DownloadError IgMedia
  scratchDeleted : Bool
  deriving Repr

/-- `download_instagram_media`: route the URL (story pattern, else
shortcode — failure to extract raises `invalid_url`), run the sync
download, fail with `download_failed` on an empty file list, with
`file_too_large` on the first file whose size exceeds `MAX_FILE_SIZE`,
and otherwise return the result; every raised `DownloadError` deletes
the scratch directory first, and any unexpected exception deletes it
and is re-raised as a `DownloadError` of kind `unknown`.  (The
`file_too_large` message carries the offending size in MB; the size
itself is what the claims inspect.) -/
def downloadInstagramMedia (url : List Char) (inner : IgInner) (maxFileSize : Nat) :
    IgBoundaryOut :=
  let routed : Except DownloadError Unit :=
    if isStoryUrl url then
      match extractStoryInfo url with
      | none => .error ⟨"Could not extract story info from URL", "invalid_url"⟩
      | some _ => .ok ()
    else
      match extractShortcode url with
      | none => .error ⟨"Could not extract post ID from URL", "invalid_url"⟩
      | some _ => .ok ()
  match routed with
  | .error d => ⟨.error d, true⟩
  | .ok _ =>
    match inner with
    | .failDl d => ⟨.error d, true⟩
    | .failRaw msg => ⟨.error ⟨msg, "unknown"⟩, true⟩
    | .ok media =>
      if media.files.isEmpty then
        ⟨.error ⟨"No media files downloaded", "download_failed"⟩, true⟩
      else
        match media.files.find? (fun f => maxFileSize < f.2) with
        | some _ => ⟨.error ⟨"File too large", "file_too_large"⟩, true⟩
        | none => ⟨.ok media, false⟩

/-- Outcome of the offloaded `_sync_download_video` inside the YouTube
boundary. -/
inductive YtInner where
  | ok (info : YtInfo)
  | failYt (e : YouTubeDownloadError)
  | failRaw (msg : String)
  deriving DecidableEq, Repr

/-- The final result `download_youtube_video` returns. -/
structure YouTubeDownloadResult where
  filePath : String
  title : String
  duration : Nat
  isAudio : Bool
  deriving DecidableEq, Repr

/-- What the YouTube boundary hands back. -/
structure YtBoundaryOut where
  result : Except YouTubeDownloadError YouTubeDownloadResult
  scratchDeleted : Bool
  deriving Repr

/-- `download_youtube_video`: run the sync download, list the scratch
directory (`files`, paths with sizes, in directory order), fail with
`download_failed` when it is empty, take `files[0]` as the result file
and fail with `file_too_large` when **that file's** size exceeds
`MAX_FILE_SIZE`; every raised `YouTubeDownloadError` deletes the
scratch directory, and any unexpected exception deletes it and is
re-raised as a `YouTubeDownloadError` of kind `download_failed`. -/
def downloadYoutubeVideo (inner : YtInner) (files : List (String × Nat))
    (maxFileSize : Nat) (quality : String) : YtBoundaryOut :=
  match inner with
  | .failYt e => ⟨.error e, true⟩
  | .failRaw msg => ⟨.error ⟨msg, "download_failed"⟩, true⟩
  | .ok info =>
    match files with
    | [] => ⟨.error ⟨"No file downloaded", "download_failed"⟩, true⟩
    | f :: _ =>
      if maxFileSize < f.2 then
        ⟨.error ⟨"File too large", "file_too_large"⟩, true⟩
      else
        ⟨.ok ⟨f.1, info.title, info.duration, quality = "audio"⟩, false⟩

/-! ## Helper lemmas -/

/-- A successful literal match means every literal character occurs in
the scanned text. -/
theorem litP_subset {tok s r : List Char} (h : litP tok s = some r) : ∀ c ∈ tok, c ∈ s := by
  induction tok generalizing s with
  | nil => simp
  | cons a as ih =>
    cases s with
    | nil => simp [litP] at h
    | cons x xs =>
      simp only [litP] at h
      split at h
      · rename_i hx
        intro c hc
        rcases List.mem_cons.mp hc with hca | hcas
        · subst hca; subst hx; exact List.mem_cons_self _ _
        · exact List.mem_cons_of_mem _ (ih h c hcas)
      · exact absurd h (by simp)

/-- A token containing a dot cannot occur in a text of `[\w-]`
characters. -/
theorem hasSub_false_of_avoid {tok s : List Char} (hdot : '.' ∈ tok)
    (hs : ∀ c ∈ s, isWordDash c = true) : hasSub tok s = false := by
  induction s with
  | nil =>
    have : tok ≠ [] := by rintro rfl; simp at hdot
    simp [hasSub, this]
  | cons c cs ih =>
    have hcs : ∀ x ∈ cs, isWordDash x = true := fun x hx => hs x (List.mem_cons_of_mem _ hx)
    simp only [hasSub, Bool.or_eq_false_iff]
    refine ⟨?_, ih hcs⟩
    cases hl : litP tok (c :: cs) with
    | none => simp
    | some r =>
      exfalso
      have : ('.' : Char) ∈ c :: cs := litP_subset hl _ hdot
      have := hs _ this
      simp [isWordDash, isWordChar] at this

/-- A capture pattern whose token contains a dot matches nowhere in a
text of `[\w-]` characters. -/
theorem searchTokCls_none_of_avoid {tok : List Char} (cls : Char → Bool) {s : List Char}
    (hdot : '.' ∈ tok) (hs : ∀ c ∈ s, isWordDash c = true) :
    searchTokCls tok cls s = none := by
  induction s with
  | nil => rfl
  | cons c cs ih =>
    have hcs : ∀ x ∈ cs, isWordDash x = true := fun x hx => hs x (List.mem_cons_of_mem _ hx)
    simp only [searchTokCls]
    cases hm : matchTokCls tok cls (c :: cs) with
    | none => simpa using ih hcs
    | some code =>
      exfalso
      unfold matchTokCls at hm
      cases hl : litP tok (c :: cs) with
      | none => rw [hl] at hm; exact absurd hm (by simp)
      | some r =>
        have : ('.' : Char) ∈ c :: cs := litP_subset hl _ hdot
        have := hs _ this
        simp [isWordDash, isWordChar] at this

/-- Dropping a satisfied predicate drops everything. -/
theorem dropWhile_nil_of_all {cls : Char → Bool} {l : List Char}
    (h : ∀ c ∈ l, cls c = true) : l.dropWhile cls = [] := by
  induction l with
  | nil => rfl
  | cons c cs ih =>
    rw [List.dropWhile_cons]
    simp [h c (List.mem_cons_self _ _), ih fun x hx => h x (List.mem_cons_of_mem _ hx)]

/-- The `[\w-]` class is contained in the `[\w.-]` class. -/
theorem isWordDotDash_of_isWordDash {c : Char} (h : isWordDash c = true) :
    isWordDotDash c = true := by
  simp only [isWordDash, Bool.or_eq_true, decide_eq_true_eq] at h
  simp only [isWordDotDash, Bool.or_eq_true, decide_eq_true_eq]
  tauto

/-- The `last_error` value after skipping a block of failures: the last
of their messages, else the incoming value. -/
def lastMsg (pre : List String) (last : Option String) : Option String :=
  match pre.getLast? with
  | some m => some m
  | none => last

theorem lastMsg_cons (m : String) (ms : List String) (last : Option String) :
    lastMsg (m :: ms) last = lastMsg ms (some m) := by
  cases ms with
  | nil => simp [lastMsg]
  | cons y ys =>
    simp only [lastMsg, List.getLast?_cons_cons]
    cases h : (y :: ys).getLast? with
    | some z => rfl
    | none => simp at h

/-- Failures that are bot-classified or unclassified are skipped by the
strategy loop, which continues on the remaining strategies with the
attempt counter advanced and `last_error` updated. -/
theorem strategyLoop_skip (pre : List String) (rest : List StratOutcome) (used : Nat)
    (last : Option String)
    (h : ∀ m ∈ pre, isBotError m = true ∨ classifyError m = "unknown") :
    strategyLoop (pre.map .err ++ rest) used last
      = strategyLoop rest (used + pre.length) (lastMsg pre last) := by
  induction pre generalizing used last with
  | nil => simp [lastMsg]
  | cons m ms ih =>
    have hm := h m (List.mem_cons_self _ _)
    have hms : ∀ x ∈ ms, isBotError x = true ∨ classifyError x = "unknown" :=
      fun x hx => h x (List.mem_cons_of_mem _ hx)
    have harith : used + 1 + ms.length = used + (ms.length + 1) := by omega
    simp only [List.map_cons, List.cons_append, strategyLoop, List.length_cons, List.append_eq]
    rcases hm with hb | hc
    · simp only [hb, if_true, ite_self]
      rw [ih (used + 1) (some m) hms, lastMsg_cons, harith]
    · simp only [hc, ne_eq, not_true_eq_false, if_false, ite_self]
      rw [ih (used + 1) (some m) hms, lastMsg_cons, harith]

/-! ## Claim theorems -/

/-- C1: For every strategy catalog, if the strategies before position k
each fail with a bot-detection (blocking-class) error and strategy k
succeeds, then both the info-only and the download fetch return
strategy k's result, exactly k strategies are attempted (the later ones
never run), and the mirror fallback chain is not entered. -/
theorem c1_first_success_short_circuits (pre : List String) (info : YtInfo)
    (post : List StratOutcome) (pipedI invI pipedD invD cobaltD : Option YtInfo)
    (h : ∀ m ∈ pre, isBotError m = true) :
    syncGetVideoInfo (pre.map .err ++ .ok info :: post) pipedI invI
        = ⟨.ok info, pre.length + 1, false⟩
    ∧ syncDownloadVideo (pre.map .err ++ .ok info :: post) pipedD invD cobaltD
        = ⟨.ok info, pre.length + 1, false⟩ := by
  have hskip := strategyLoop_skip pre (.ok info :: post) 0 none
    (fun m hm => Or.inl (h m hm))
  have hloop : strategyLoop (pre.map .err ++ .ok info :: post) 0 none
      = .success info (pre.length + 1) := by
    rw [hskip]
    simp [strategyLoop]
  constructor
  · rw [syncGetVideoInfo, hloop]
  · rw [syncDownloadVideo, hloop]

/-- C1 witness: a concrete catalog where strategy 1 is blocked by bot
detection, strategy 2 succeeds and strategy 3 would fail. -/
theorem c1_witness :
    (∀ m ∈ ["Sign in to confirm you're not a bot"], isBotError m = true)
    ∧ syncGetVideoInfo
        [.err "Sign in to confirm you're not a bot", .ok ⟨"t", 7⟩, .err "boom"] none none
        = ⟨.ok ⟨"t", 7⟩, 2, false⟩ :=
  ⟨by decide,
    (c1_first_success_short_circuits ["Sign in to confirm you're not a bot"] ⟨"t", 7⟩
      [.err "boom"] none none none none none (by decide)).1⟩

/-- C2: If the fetch reaches a strategy that fails with a
terminal-class error — one that is not a bot-detection signal and whose
classification is among private / not_found / rate_limit /
age_restricted — then both fetch variants abort right there with a
classified error of that kind: no later strategy and no mirror tier is
attempted.  (In this classifier `rate_limit` is never actually
produced, so that disjunct is vacuous.) -/
theorem c2_terminal_error_aborts (pre : List String) (m : String)
    (post : List StratOutcome) (pipedI invI pipedD invD cobaltD : Option YtInfo)
    (hpre : ∀ p ∈ pre, isBotError p = true ∨ classifyError p = "unknown")
    (hbot : isBotError m = false)
    (hterm : classifyError m ∈ ["private", "not_found", "rate_limit", "age_restricted"]) :
    syncGetVideoInfo (pre.map .err ++ .err m :: post) pipedI invI
        = ⟨.error ⟨m, classifyError m⟩, pre.length + 1, false⟩
    ∧ syncDownloadVideo (pre.map .err ++ .err m :: post) pipedD invD cobaltD
        = ⟨.error ⟨m, classifyError m⟩, pre.length + 1, false⟩ := by
  have hne : classifyError m ≠ "unknown" := by
    intro he
    rw [he] at hterm
    exact absurd hterm (by decide)
  have hloop : strategyLoop (pre.map .err ++ .err m :: post) 0 none
      = .terminal ⟨m, classifyError m⟩ (pre.length + 1) := by
    rw [strategyLoop_skip pre (.err m :: post) 0 none hpre]
    simp [strategyLoop, hbot, hne]
  constructor
  · rw [syncGetVideoInfo, hloop]
  · rw [syncDownloadVideo, hloop]

/-- C2 witness: strategy 1 is blocked, strategy 2 hits a private video,
strategy 3 would succeed; both fetches abort with `private` after two
attempts. -/
theorem c2_witness :
    isBotError "This video is private" = false
    ∧ classifyError "This video is private" = "private"
    ∧ syncDownloadVideo
        [.err "Sign in to confirm you're not a bot", .err "This video is private",
          .ok ⟨"t", 7⟩] none none none
        = ⟨.error ⟨"This video is private", "private"⟩, 2, false⟩ :=
  ⟨by decide, by decide, by
    have := (c2_terminal_error_aborts ["Sign in to confirm you're not a bot"]
      "This video is private" [.ok ⟨"t", 7⟩] none none none none none
      (by decide) (by decide) (by decide)).2
    simpa using this⟩

theorem postNoauthTail_state (st : IgState) (na : IgAttempt) (used : Bool) :
    (postNoauthTail st na used).state = st := by
  cases na with
  | ok media => rfl
  | fail e => simp only [postNoauthTail]; split <;> rfl
  | failDl d => rfl

theorem postNoauthTail_used (st : IgState) (na : IgAttempt) (used : Bool) :
    (postNoauthTail st na used).cookieStrategyUsed = used := by
  cases na with
  | ok media => rfl
  | fail e => simp only [postNoauthTail]; split <;> rfl
  | failDl d => rfl

theorem storyNoauthTail_state (st : IgState) (na : IgAttempt) (used : Bool) :
    (storyNoauthTail st na used).state = st := by
  cases na with
  | ok media => rfl
  | fail e => simp only [storyNoauthTail]; split <;> rfl
  | failDl d => rfl

theorem storyNoauthTail_used (st : IgState) (na : IgAttempt) (used : Bool) :
    (storyNoauthTail st na used).cookieStrategyUsed = used := by
  cases na with
  | ok media => rfl
  | fail e => simp only [storyNoauthTail]; split <;> rfl
  | failDl d => rfl

/-- C3: Authentication-class failures (which exclude the rate-limit
signals `please wait` and `429`) of the cookie-backed strategy turn the
credential validity flag off, in both the post and the story fetch;
once the flag is off, every later fetch call skips the cookie-backed
strategy and leaves the flag off, and the remaining operations that
touch the flag (`_invalidate_cookies`, `_get_loader`) also never turn
it back on — so invalidation is permanent for the process's
lifetime. -/
theorem c3_credential_invalidation (st : IgState) (na : IgAttempt)
    (sessionLoadOk : Bool) (e : IgExc) :
    (∀ m : String, hasSubS "please wait" (strLower m) = true → isAuthError m = false)
    ∧ (∀ m : String, hasSubS "429" (strLower m) = true → isAuthError m = false)
    ∧ (st.cookiesValid = true → isAuthError e.msg = true →
      (syncDownloadPost st (.fail e) na sessionLoadOk).state.cookiesValid = false)
    ∧ (st.cookiesValid = true → isAuthError e.msg = true →
      (syncDownloadStory st (.fail e) na sessionLoadOk).state.cookiesValid = false)
    ∧ (∀ ca, st.cookiesValid = false →
      (syncDownloadPost st ca na sessionLoadOk).cookieStrategyUsed = false
      ∧ (syncDownloadPost st ca na sessionLoadOk).state.cookiesValid = false)
    ∧ (∀ ca, st.cookiesValid = false →
      (syncDownloadStory st ca na sessionLoadOk).cookieStrategyUsed = false
      ∧ (syncDownloadStory st ca na sessionLoadOk).state.cookiesValid = false)
    ∧ (invalidateCookies st).cookiesValid = false
    ∧ (st.cookiesValid = false → (getLoaderState st sessionLoadOk).cookiesValid = false) := by
  refine ⟨?_, ?_, ?_, ?_, ?_, ?_, rfl, ?_⟩
  · intro m h
    simp [isAuthError, h]
  · intro m h
    simp [isAuthError, h]
  · intro hv ha
    simp only [syncDownloadPost, hv, if_true, ha]
    rw [postNoauthTail_state]
    rfl
  · intro hv ha
    simp only [syncDownloadStory, hv, if_true, ha]
    rw [storyNoauthTail_state]
    rfl
  · intro ca hv
    simp only [syncDownloadPost, hv, Bool.false_eq_true, if_false]
    exact ⟨postNoauthTail_used st na false, by rw [postNoauthTail_state]; exact hv⟩
  · intro ca hv
    simp only [syncDownloadStory, hv, Bool.false_eq_true, if_false]
    exact ⟨storyNoauthTail_used st na false, by rw [storyNoauthTail_state]; exact hv⟩
  · intro hv
    simp only [getLoaderState]
    split
    · exact hv
    · simp [hv]

/-- C3 witness: a concrete auth failure (`login_required`) with valid
cookies flips the flag off, and a subsequent call with the flag off
does not attempt the cookie strategy. -/
theorem c3_witness :
    isAuthError "401 Unauthorized: login_required" = true
    ∧ (syncDownloadPost ⟨true, false⟩ (.fail ⟨.connection, "401 Unauthorized: login_required"⟩)
        (.ok ⟨[("f", 1)], "c", "photo"⟩) true).state.cookiesValid = false
    ∧ (syncDownloadPost ⟨false, false⟩ (.fail ⟨.connection, "x"⟩)
        (.ok ⟨[("f", 1)], "c", "photo"⟩) true).cookieStrategyUsed = false :=
  ⟨by decide,
    (c3_credential_invalidation ⟨true, false⟩ (.ok ⟨[("f", 1)], "c", "photo"⟩) true
      ⟨.connection, "401 Unauthorized: login_required"⟩).2.2.1 rfl (by decide),
    ((c3_credential_invalidation ⟨false, false⟩ (.ok ⟨[("f", 1)], "c", "photo"⟩) true
      ⟨.connection, "x"⟩).2.2.2.2.1 (.fail ⟨.connection, "x"⟩) rfl).1⟩

/-- C4: Credential loading fails closed.  The parser skips blank lines,
comment lines and lines with fewer than seven tab-separated fields, and
on a qualifying line stores field 5 as the cookie name and field 6 as
its value; and whenever the parsed map lacks `sessionid` or lacks
`ds_user_id`, the session load reports `false` — no partial credential
set. -/
theorem c4_cookie_load_fails_closed :
    (∀ (acc : List (String × String)) (line : String) (rest : List String),
      (strTrim line = "" ∨ strStartsWith (strTrim line) "#" = true
        ∨ (splitTab (strTrim line)).length < 7) →
      (line :: rest).foldl parseCookieLine acc = rest.foldl parseCookieLine acc)
    ∧ (∀ (acc : List (String × String)) (line : String) (rest : List String),
      strTrim line ≠ "" → strStartsWith (strTrim line) "#" = false →
      7 ≤ (splitTab (strTrim line)).length →
      (line :: rest).foldl parseCookieLine acc
        = rest.foldl parseCookieLine
            (dictInsert acc ((splitTab (strTrim line)).getD 5 "")
              ((splitTab (strTrim line)).getD 6 "")))
    ∧ (∀ (fileExists : Bool) (lines : List String),
      dictGet (parseNetscapeCookies lines) "sessionid" = none
        ∨ dictGet (parseNetscapeCookies lines) "ds_user_id" = none →
      tryLoadSession fileExists lines = false) := by
  refine ⟨?_, ?_, ?_⟩
  · intro acc line rest h
    rcases h with h | h | h
    · simp [List.foldl_cons, parseCookieLine, h]
    · simp [List.foldl_cons, parseCookieLine, h]
    · have h7 : ¬(7 ≤ (splitTab (strTrim line)).length) := by omega
      simp [List.foldl_cons, parseCookieLine, h7]
  · intro acc line rest hblank hcomment h7
    simp [List.foldl_cons, parseCookieLine, hblank, hcomment, h7]
  · intro fileExists lines h
    cases fileExists with
    | false => rfl
    | true =>
      simp only [tryLoadSession, Bool.not_true, Bool.false_eq_true, if_false]
      rcases h with h | h
      · simp [h]
      · simp only [h, Option.getD_none]
        split
        · rfl
        · split
          · rfl
          · simp

/-- C4 witness: a file with only a comment and a `csrftoken` line
parses to a map without `sessionid`, and the session load reports
`false`. -/
theorem c4_witness :
    dictGet (parseNetscapeCookies
        ["# Netscape HTTP Cookie File",
          ".instagram.com\tTRUE\t/\tTRUE\t0\tcsrftoken\tT"]) "sessionid" = none
    ∧ tryLoadSession true
        ["# Netscape HTTP Cookie File",
          ".instagram.com\tTRUE\t/\tTRUE\t0\tcsrftoken\tT"] = false :=
  ⟨by decide,
    c4_cookie_load_fails_closed.2.2 true
      ["# Netscape HTTP Cookie File", ".instagram.com\tTRUE\t/\tTRUE\t0\tcsrftoken\tT"]
      (Or.inl (by decide))⟩

theorem pyMaxBy_spec {α : Type} (key : α → Nat) (x : α) (xs : List α) :
    ∃ m, pyMaxBy key (x :: xs) = some m ∧ m ∈ x :: xs ∧ ∀ a ∈ x :: xs, key a ≤ key m := by
  induction xs generalizing x with
  | nil => exact ⟨x, rfl, List.mem_cons_self _ _, by simp⟩
  | cons y ys ih =>
    obtain ⟨m, hm, hmem, hmax⟩ := ih (if key y > key x then y else x)
    refine ⟨m, ?_, ?_, ?_⟩
    · simpa [pyMaxBy] using by simpa [pyMaxBy] using hm
    · rcases List.mem_cons.mp hmem with h | h
      · subst h
        split
        · exact List.mem_cons_of_mem _ (List.mem_cons_self _ _)
        · exact List.mem_cons_self _ _
      · exact List.mem_cons_of_mem _ (List.mem_cons_of_mem _ h)
    · intro a ha
      have hzx : key x ≤ key (if key y > key x then y else x) := by split <;> omega
      have hzy : key y ≤ key (if key y > key x then y else x) := by split <;> omega
      rcases List.mem_cons.mp ha with h | h
      · subst h
        exact le_trans hzx (hmax _ (List.mem_cons_self _ _))
      · rcases List.mem_cons.mp h with h2 | h2
        · subst h2
          exact le_trans hzy (hmax _ (List.mem_cons_self _ _))
        · exact hmax _ (List.mem_cons_of_mem _ h2)

theorem pyMinBy_spec {α : Type} (key : α → Nat) (x : α) (xs : List α) :
    ∃ m, pyMinBy key (x :: xs) = some m ∧ m ∈ x :: xs ∧ ∀ a ∈ x :: xs, key m ≤ key a := by
  induction xs generalizing x with
  | nil => exact ⟨x, rfl, List.mem_cons_self _ _, by simp⟩
  | cons y ys ih =>
    obtain ⟨m, hm, hmem, hmin⟩ := ih (if key y < key x then y else x)
    refine ⟨m, ?_, ?_, ?_⟩
    · simpa [pyMinBy] using by simpa [pyMinBy] using hm
    · rcases List.mem_cons.mp hmem with h | h
      · subst h
        split
        · exact List.mem_cons_of_mem _ (List.mem_cons_self _ _)
        · exact List.mem_cons_self _ _
      · exact List.mem_cons_of_mem _ (List.mem_cons_of_mem _ h)
    · intro a ha
      have hzx : key (if key y < key x then y else x) ≤ key x := by split <;> omega
      have hzy : key (if key y < key x then y else x) ≤ key y := by split <;> omega
      rcases List.mem_cons.mp ha with h | h
      · subst h
        exact le_trans (hmin _ (List.mem_cons_self _ _)) hzx
      · rcases List.mem_cons.mp h with h2 | h2
        · subst h2
          exact le_trans (hmin _ (List.mem_cons_self _ _)) hzy
        · exact hmin _ (List.mem_cons_of_mem _ h2)

/-- C5: For every non-empty candidate stream list and every quality cap
in {1080, 720, 480, 360}, both mirror-tier resolvers return a stream
(never failing merely because nothing fits under the cap): the first
stream of maximal height among those at most the cap when one exists,
otherwise the first stream of minimal height.  For the Piped tier the
candidate list is its mp4-preferred list and heights are the `height`
fields; for the Invidious tier candidates are the adaptive video
formats and heights are parsed from `qualityLabel`. -/
theorem c5_quality_cap_selection :
    (∀ (streams : List PipedStream) (cap : Nat), streams ≠ [] →
      cap ∈ [1080, 720, 480, 360] →
      ∃ s, pipedPickVideo streams cap = some s ∧ s ∈ pipedMp4Candidates streams
        ∧ ((∃ c ∈ pipedMp4Candidates streams, pipedHeight c ≤ cap) →
            pipedHeight s ≤ cap
            ∧ ∀ c ∈ pipedMp4Candidates streams, pipedHeight c ≤ cap →
                pipedHeight c ≤ pipedHeight s)
        ∧ ((∀ c ∈ pipedMp4Candidates streams, cap < pipedHeight c) →
            ∀ c ∈ pipedMp4Candidates streams, pipedHeight s ≤ pipedHeight c))
    ∧ (∀ (videos : List InvFormat) (cap : Nat), videos ≠ [] →
      cap ∈ [1080, 720, 480, 360] →
      ∃ v, invPickVideo videos cap = some v ∧ v ∈ videos
        ∧ ((∃ c ∈ videos, parseQualityLabel c.qualityLabel ≤ cap) →
            parseQualityLabel v.qualityLabel ≤ cap
            ∧ ∀ c ∈ videos, parseQualityLabel c.qualityLabel ≤ cap →
                parseQualityLabel c.qualityLabel ≤ parseQualityLabel v.qualityLabel)
        ∧ ((∀ c ∈ videos, cap < parseQualityLabel c.qualityLabel) →
            ∀ c ∈ videos, parseQualityLabel v.qualityLabel ≤ parseQualityLabel c.qualityLabel)) := by
  constructor
  · intro streams cap hne hcap
    obtain ⟨s0, rest, rfl⟩ := List.exists_cons_of_ne_nil hne
    have hcands : pipedMp4Candidates (s0 :: rest) ≠ [] := by
      by_cases hf : (List.filter (fun s => hasSubS "video/mp4" s.mimeType) (s0 :: rest)).isEmpty = true
      · simp [pipedMp4Candidates, hf]
      · simp only [pipedMp4Candidates, hf, Bool.false_eq_true, if_false]
        intro h
        rw [h] at hf
        simp at hf
    have hpick : pipedPickVideo (s0 :: rest) cap
        = (if ((pipedMp4Candidates (s0 :: rest)).filter
              (fun s => pipedHeight s ≤ cap)).isEmpty then
            pyMinBy pipedHeight (pipedMp4Candidates (s0 :: rest))
          else
            pyMaxBy pipedHeight
              ((pipedMp4Candidates (s0 :: rest)).filter (fun s => pipedHeight s ≤ cap))) := rfl
    by_cases hsuit : ((pipedMp4Candidates (s0 :: rest)).filter
        (fun s => pipedHeight s ≤ cap)).isEmpty = true
    · have hall : ∀ c ∈ pipedMp4Candidates (s0 :: rest), ¬(pipedHeight c ≤ cap) := by
        rw [List.isEmpty_iff, List.filter_eq_nil_iff] at hsuit
        intro c hc
        have := hsuit c hc
        simpa using this
      obtain ⟨c0, cands, hcands_eq⟩ := List.exists_cons_of_ne_nil hcands
      obtain ⟨m, hm, hmem, hmin⟩ := pyMinBy_spec pipedHeight c0 cands
      rw [← hcands_eq] at hm hmem hmin
      refine ⟨m, ?_, hmem, ?_, fun _ => hmin⟩
      · rw [hpick, if_pos hsuit, hm]
      · rintro ⟨c, hc, hle⟩
        exact absurd hle (hall c hc)
    · have hsuit' : (pipedMp4Candidates (s0 :: rest)).filter
          (fun s => pipedHeight s ≤ cap) ≠ [] := by
        intro h
        rw [h] at hsuit
        simp at hsuit
      obtain ⟨c0, cands, hcands_eq⟩ := List.exists_cons_of_ne_nil hsuit'
      obtain ⟨m, hm, hmem, hmax⟩ := pyMaxBy_spec pipedHeight c0 cands
      rw [← hcands_eq] at hm hmem hmax
      have hmem' := List.mem_filter.mp hmem
      refine ⟨m, ?_, hmem'.1, ?_, ?_⟩
      · rw [hpick, if_neg hsuit, hm]
      · intro _
        refine ⟨by simpa using hmem'.2, fun c hc hcle => ?_⟩
        exact hmax c (List.mem_filter.mpr ⟨hc, by simpa using hcle⟩)
      · intro hallgt
        have := hallgt m hmem'.1
        have h2 : pipedHeight m ≤ cap := by simpa using hmem'.2
        omega
  · intro videos cap hne hcap
    obtain ⟨v0, rest, rfl⟩ := List.exists_cons_of_ne_nil hne
    have hpick : invPickVideo (v0 :: rest) cap
        = (if ((v0 :: rest).filter
              (fun v => parseQualityLabel v.qualityLabel ≤ cap)).isEmpty then
            pyMinBy
              (fun f =>
                let q := parseQualityLabel f.qualityLabel
                if q = 0 then 9999 else q)
              (v0 :: rest)
          else
            pyMaxBy (fun f => parseQualityLabel f.qualityLabel)
              ((v0 :: rest).filter
                (fun v => parseQualityLabel v.qualityLabel ≤ cap))) := rfl
    by_cases hsuit : ((v0 :: rest).filter
        (fun v => parseQualityLabel v.qualityLabel ≤ cap)).isEmpty = true
    · have hall : ∀ c ∈ v0 :: rest, ¬(parseQualityLabel c.qualityLabel ≤ cap) := by
        rw [List.isEmpty_iff, List.filter_eq_nil_iff] at hsuit
        intro c hc
        have := hsuit c hc
        simpa using this
      obtain ⟨m, hm, hmem, hmin⟩ := pyMinBy_spec
        (fun f =>
          let q := parseQualityLabel f.qualityLabel
          if q = 0 then 9999 else q) v0 rest
      refine ⟨m, ?_, hmem, ?_, fun _ c hc => ?_⟩
      · rw [hpick, if_pos hsuit, hm]
      · rintro ⟨c, hc, hle⟩
        exact absurd hle (hall c hc)
      · have h1 := hmin c hc
        have hqm : ¬(parseQualityLabel m.qualityLabel = 0) := by
          have := hall m hmem
          omega
        have hqc : ¬(parseQualityLabel c.qualityLabel = 0) := by
          have := hall c hc
          omega
        simp only [hqm, hqc, if_false, ite_false] at h1
        exact h1
    · have hsuit' : (v0 :: rest).filter
          (fun v => parseQualityLabel v.qualityLabel ≤ cap) ≠ [] := by
        intro h
        rw [h] at hsuit
        simp at hsuit
      obtain ⟨c0, cands, hcands_eq⟩ := List.exists_cons_of_ne_nil hsuit'
      obtain ⟨m, hm, hmem, hmax⟩ := pyMaxBy_spec (fun f => parseQualityLabel f.qualityLabel) c0 cands
      rw [← hcands_eq] at hm hmem hmax
      have hmem' := List.mem_filter.mp hmem
      refine ⟨m, ?_, hmem'.1, ?_, ?_⟩
      · rw [hpick, if_neg hsuit, hm]
      · intro _
        refine ⟨by simpa using hmem'.2, fun c hc hcle => ?_⟩
        exact hmax c (List.mem_filter.mpr ⟨hc, by simpa using hcle⟩)
      · intro hallgt
        have := hallgt m hmem'.1
        have h2 : parseQualityLabel m.qualityLabel ≤ cap := by simpa using hmem'.2
        omega

/-- C5 witness: with a single 360p mp4 stream and cap 720 the Piped
resolver returns that stream. -/
theorem c5_witness :
    ([⟨"u", "video/mp4", some 360, true, 0⟩] : List PipedStream) ≠ []
    ∧ (720 : Nat) ∈ [1080, 720, 480, 360]
    ∧ ∃ s, pipedPickVideo [⟨"u", "video/mp4", some 360, true, 0⟩] 720 = some s
        ∧ s ∈ pipedMp4Candidates [⟨"u", "video/mp4", some 360, true, 0⟩] :=
  ⟨by decide, by decide, by
    obtain ⟨s, hs, hmem, -⟩ := c5_quality_cap_selection.1
      [⟨"u", "video/mp4", some 360, true, 0⟩] 720 (by decide) (by decide)
    exact ⟨s, hs, hmem⟩⟩

/-- C6: When a mirror tier delivers video and audio as separate streams
and both downloads succeed, the output is the single muxed file when
`_merge_av` succeeds, and the raw video-only file renamed to the output
path when muxing fails — never a failure of the whole fetch.  This
holds for both the Piped and the Invidious assembly tails. -/
theorem c6_mux_fallback (mergeOk haveCombined combinedOk : Bool) :
    pipedAssembleVideo true true true true mergeOk
        = (if mergeOk then .mergedFile else .videoOnlyFile)
    ∧ invAssembleVideo true true true true mergeOk haveCombined combinedOk
        = (if mergeOk then .mergedFile else .videoOnlyFile) := by
  cases mergeOk <;> simp [pipedAssembleVideo, invAssembleVideo]

/-- C7 counterexample: the claim states the `duration = 40` offset list
is `[0, 6, 40 * 0.3]` — the ~15% offset before the 30% offset — but the
code appends the 30% offset first: the generated list is `[0, 12, 6]`,
not `[0, 6, 12]`. -/
theorem c7_counterexample :
    recognitionSegments 40 = [0, 12, 6] ∧ ([0, 12, 6] : List ℚ) ≠ [0, 6, 12] := by
  constructor
  · norm_num [recognitionSegments]
  · decide

/-- C7 (amended): the segment list is offset 0 always, then the 30%
offset when duration exceeds 30, then the 50% offset when duration
exceeds 60, then `max(5, 15%)` when duration exceeds 15 — in that
generated order; so duration 10 gives `[0]`, duration 40 gives
`[0, 12, 6]` and duration 90 gives `[0, 27, 45, 13.5]`. -/
theorem c7_recognition_segments (d : ℚ) :
    recognitionSegments d
        = [0] ++ (if d > 30 then [d * (3 / 10)] else [])
            ++ (if d > 60 then [d * (1 / 2)] else [])
            ++ (if d > 15 then [max 5 (d * (3 / 20))] else [])
    ∧ recognitionSegments 10 = [0]
    ∧ recognitionSegments 40 = [0, 12, 6]
    ∧ recognitionSegments 90 = [0, 27, 45, 27 / 2] := by
  refine ⟨?_, by norm_num [recognitionSegments], by norm_num [recognitionSegments],
    by norm_num [recognitionSegments]⟩
  simp only [recognitionSegments]
  split_ifs <;> simp

/-- C8 counterexample: the claim states any oversized downloaded file
fails the request, but the YouTube boundary checks only the first file
of the scratch directory: with files of sizes 10 and 100 under a
ceiling of 50, the fetch succeeds even though the second file exceeds
the ceiling. -/
theorem c8_counterexample :
    (downloadYoutubeVideo (.ok ⟨"t", 3⟩) [("a", 10), ("b", 100)] 50 "720").result
        = .ok ⟨"a", "t", 3, false⟩
    ∧ (50 : Nat) < 100 := by
  exact ⟨rfl, by decide⟩

/-- C8 (amended): the Instagram boundary checks every collected file
after download — any oversized file fails the request with
`file_too_large` and the scratch directory is deleted before the error
propagates; the YouTube boundary applies the same check and cleanup to
the first file of its scratch directory only (its single result
file). -/
theorem c8_oversized_file_policy :
    (∀ (url : List Char) (media : IgMedia) (maxFS : Nat),
      isStoryUrl url = false → (∃ sc, extractShortcode url = some sc) →
      (∃ f ∈ media.files, maxFS < f.2) →
      downloadInstagramMedia url (.ok media) maxFS
        = ⟨.error ⟨"File too large", "file_too_large"⟩, true⟩)
    ∧ (∀ (info : YtInfo) (f : String × Nat) (rest : List (String × Nat))
        (maxFS : Nat) (q : String),
      maxFS < f.2 →
      downloadYoutubeVideo (.ok info) (f :: rest) maxFS q
        = ⟨.error ⟨"File too large", "file_too_large"⟩, true⟩) := by
  constructor
  · intro url media maxFS hstory ⟨sc, hsc⟩ hbig
    have hne : media.files.isEmpty = false := by
      obtain ⟨f, hf, -⟩ := hbig
      cases hfiles : media.files with
      | nil => rw [hfiles] at hf; simp at hf
      | cons a as => simp
    have hfind : media.files.find? (fun f => maxFS < f.2) ≠ none := by
      intro h
      rw [List.find?_eq_none] at h
      obtain ⟨f, hf, hlt⟩ := hbig
      exact h f hf (by simpa using hlt)
    simp only [downloadInstagramMedia, hstory, Bool.false_eq_true, if_false, hsc, hne]
    cases hf2 : media.files.find? (fun f => maxFS < f.2) with
    | none => exact absurd hf2 hfind
    | some f => simp
  · intro info f rest maxFS q hlt
    simp [downloadYoutubeVideo, hlt]

/-- C8 witness: an Instagram fetch of a valid post URL with files of
sizes 10 and 100 under a ceiling of 50 fails with `file_too_large` and
deletes the scratch directory. -/
theorem c8_witness :
    isStoryUrl "https://instagram.com/p/AbC".toList = false
    ∧ (50 : Nat) < 100
    ∧ downloadInstagramMedia "https://instagram.com/p/AbC".toList
        (.ok ⟨[("f1", 10), ("f2", 100)], "c", "album"⟩) 50
        = ⟨.error ⟨"File too large", "file_too_large"⟩, true⟩ :=
  ⟨by decide, by decide,
    c8_oversized_file_policy.1 "https://instagram.com/p/AbC".toList
      ⟨[("f1", 10), ("f2", 100)], "c", "album"⟩ 50 (by decide)
      ⟨"AbC".toList, by decide⟩
      ⟨("f2", 100), by decide, by decide⟩⟩

/-- C9 counterexample: the claim states both request boundaries re-raise
unexpected exceptions with kind `unknown`, but the YouTube boundary
uses kind `download_failed`. -/
theorem c9_counterexample :
    (downloadYoutubeVideo (.failRaw "boom") [("f", 1)] 50 "720").result
        = .error ⟨"boom", "download_failed"⟩
    ∧ "download_failed" ≠ "unknown" := by
  exact ⟨rfl, by decide⟩

/-- C9 (amended): no raw exception escapes either boundary — the
Instagram boundary converts an unexpected exception to a classified
error of kind `unknown` (deleting the scratch directory), while the
YouTube boundary converts it to kind `download_failed`; already
classified errors pass through unchanged in both. -/
theorem c9_boundary_classification (msg : String) (d : DownloadError)
    (e : YouTubeDownloadError) (url : List Char) (files : List (String × Nat))
    (maxFS : Nat) (q : String) (hstory : isStoryUrl url = false)
    (hsc : ∃ sc, extractShortcode url = some sc) :
    downloadInstagramMedia url (.failRaw msg) maxFS = ⟨.error ⟨msg, "unknown"⟩, true⟩
    ∧ downloadInstagramMedia url (.failDl d) maxFS = ⟨.error d, true⟩
    ∧ downloadYoutubeVideo (.failRaw msg) files maxFS q
        = ⟨.error ⟨msg, "download_failed"⟩, true⟩
    ∧ downloadYoutubeVideo (.failYt e) files maxFS q = ⟨.error e, true⟩ := by
  obtain ⟨sc, hsc⟩ := hsc
  refine ⟨?_, ?_, rfl, rfl⟩
  · simp [downloadInstagramMedia, hstory, hsc]
  · simp [downloadInstagramMedia, hstory, hsc]

/-- C9 witness: the amended behaviour at a concrete post URL and
message. -/
theorem c9_witness :
    isStoryUrl "https://instagram.com/p/AbC".toList = false
    ∧ downloadInstagramMedia "https://instagram.com/p/AbC".toList (.failRaw "boom") 50
        = ⟨.error ⟨"boom", "unknown"⟩, true⟩ :=
  ⟨by decide,
    (c9_boundary_classification "boom" ⟨"x", "private"⟩ ⟨"x", "private"⟩
      "https://instagram.com/p/AbC".toList [] 50 "720" (by decide)
      ⟨"AbC".toList, by decide⟩).1⟩

/-- The canonical share URL family `https://instagram.com/share/<id>`. -/
def shareUrl (id : List Char) : List Char :=
  "https://instagram.com/share/".toList ++ id

theorem shareUrl_shortcode_none (id : List Char) (hcls : ∀ c ∈ id, isWordDash c = true) :
    extractShortcode (shareUrl id) = none := by
  have h1 : searchTokCls "instagram.com/p/".toList isWordDash id = none :=
    searchTokCls_none_of_avoid _ (by decide) hcls
  have h2 : searchTokCls "instagram.com/reel/".toList isWordDash id = none :=
    searchTokCls_none_of_avoid _ (by decide) hcls
  have h3 : searchTokCls "instagram.com/tv/".toList isWordDash id = none :=
    searchTokCls_none_of_avoid _ (by decide) hcls
  simp at h1 h2 h3
  simp only [extractShortcode, shareUrl]
  simp [searchTokCls, matchTokCls, litP, h1, h2, h3]

theorem shareUrl_not_story (id : List Char) (hcls : ∀ c ∈ id, isWordDash c = true) :
    isStoryUrl (shareUrl id) = false := by
  have h1 : hasSub "instagram.com/stories/".toList id = false :=
    hasSub_false_of_avoid (by decide) hcls
  simp at h1
  simp only [isStoryUrl, shareUrl]
  simp [hasSub, litP, h1]

theorem igRegexMatch_shareUrl (c : Char) (cs : List Char)
    (hcls : ∀ x ∈ c :: cs, isWordDash x = true) :
    igRegexMatch (shareUrl (c :: cs)) = some [] := by
  have hdrop : cs.dropWhile isWordDotDash = [] :=
    dropWhile_nil_of_all fun x hx =>
      isWordDotDash_of_isWordDash (hcls x (List.mem_cons_of_mem _ hx))
  have hc : isWordDotDash c = true :=
    isWordDotDash_of_isWordDash (hcls c (List.mem_cons_self _ _))
  simp only [shareUrl]
  simp [igRegexMatch, igRegexTail, optThen, altsThen, plusThen, litP, hc, hdrop]

theorem igFindallAux_nil (fuel : Nat) : igFindallAux fuel [] = [] := by
  cases fuel <;> rfl

theorem igFindall_shareUrl (c : Char) (cs : List Char)
    (hcls : ∀ x ∈ c :: cs, isWordDash x = true) :
    igFindall (shareUrl (c :: cs)) = [shareUrl (c :: cs)] := by
  have hmatch := igRegexMatch_shareUrl c cs hcls
  have hlen : (shareUrl (c :: cs)).length = (27 + (c :: cs).length) + 1 := by
    simp [shareUrl]
    omega
  have hcons : ∃ d ds, shareUrl (c :: cs) = d :: ds := by
    simp [shareUrl]
  obtain ⟨d, ds, hds⟩ := hcons
  rw [igFindall, hlen, hds]
  rw [hds] at hmatch
  simp [igFindallAux, hmatch, igFindallAux_nil, List.take_length]

theorem igAnyPatternMatch_shareUrl (c : Char) (cs : List Char)
    (hcls : ∀ x ∈ c :: cs, isWordDash x = true) :
    igAnyPatternMatch (shareUrl (c :: cs)) = true := by
  have hdrop : cs.dropWhile isWordDash = [] :=
    dropWhile_nil_of_all fun x hx => hcls x (List.mem_cons_of_mem _ hx)
  have hc : isWordDash c = true := hcls c (List.mem_cons_self _ _)
  simp only [shareUrl, igAnyPatternMatch]
  simp [igPatternMatch, optThen, plusThen, litP, hc, hdrop]

theorem extractInstagramUrls_shareUrl (c : Char) (cs : List Char)
    (hcls : ∀ x ∈ c :: cs, isWordDash x = true) :
    extractInstagramUrls (shareUrl (c :: cs)) = [shareUrl (c :: cs)] := by
  rw [extractInstagramUrls, igFindall_shareUrl c cs hcls]
  simp [igAnyPatternMatch_shareUrl c cs hcls]

/-- C10: Every URL of the form `instagram.com/share/<id>` (nonempty
`<id>` over the `[\w-]` class) is matched by the Instagram URL
recognition regex and returned by the extractor, yet the shortcode
extractor — which knows only `/p/`, `/reel/` and `/tv/` — returns
nothing for it, so the Instagram download entry point always fails on
such a URL with a classified error of kind `invalid_url` (whatever the
inner download would have produced), deleting the scratch
directory. -/
theorem c10_share_url_gap (id : List Char) (hne : id ≠ [])
    (hcls : ∀ c ∈ id, isWordDash c = true) :
    extractInstagramUrls (shareUrl id) = [shareUrl id]
    ∧ extractShortcode (shareUrl id) = none
    ∧ ∀ (inner : IgInner) (maxFS : Nat),
        downloadInstagramMedia (shareUrl id) inner maxFS
          = ⟨.error ⟨"Could not extract post ID from URL", "invalid_url"⟩, true⟩ := by
  obtain ⟨c, cs, rfl⟩ := List.exists_cons_of_ne_nil hne
  refine ⟨extractInstagramUrls_shareUrl c cs hcls,
    shareUrl_shortcode_none (c :: cs) hcls, ?_⟩
  intro inner maxFS
  simp [downloadInstagramMedia, shareUrl_not_story (c :: cs) hcls,
    shareUrl_shortcode_none (c :: cs) hcls]

/-- C10 witness: the concrete share URL with id `AbC` is extracted as an
Instagram URL but the downloader rejects it as `invalid_url`. -/
theorem c10_witness :
    ("AbC".toList : List Char) ≠ []
    ∧ (∀ c ∈ "AbC".toList, isWordDash c = true)
    ∧ extractInstagramUrls (shareUrl "AbC".toList) = [shareUrl "AbC".toList]
    ∧ (downloadInstagramMedia (shareUrl "AbC".toList)
          (.ok ⟨[("f", 1)], "c", "photo"⟩) 50).result
        = .error ⟨"Could not extract post ID from URL", "invalid_url"⟩ :=
  ⟨by decide, by decide,
    (c10_share_url_gap "AbC".toList (by decide) (by decide)).1,
    by
      rw [(c10_share_url_gap "AbC".toList (by decide) (by decide)).2.2
        (.ok ⟨[("f", 1)], "c", "photo"⟩) 50]⟩

end InstagramBot
